import Mathlib

/-!
# Verification of the music_finder duplicate scanner

A shallow embedding of the core of the `music_finder` repository:

* `src/core/file_info.py`   — `FileInfo`, MD5 computation with bounded retry;
* `src/core/file_index.py`  — persisted per-root index (`save_index`, `load_index`);
* `src/core/music_finder.py`— `normalize_path`, `parse_music_filename`,
  `normalize_artist_name`, and `find_duplicates` (index-assisted scan plus the
  four duplicate-classification methods);
* `src/gui/widgets/file_tree.py` — `_select_files_to_delete` (deletion ranking).

Filesystem and I/O effects are modelled by a pure oracle (`Env`): `os.stat`
results, `os.path.getmtime` of directories, the per-attempt outcomes of MD5
content reads, and the (timezone-dependent) `time.strftime` rendering.  Paths
are plain strings and the POSIX forms of `os.path.dirname` / `os.path.splitext`
/ `os.path.normpath` / `os.path.join` are embedded directly (the `win32wnet`
mapped-drive branch of `normalize_path` is a no-op on a platform where that
module is absent, as in the source's `except ImportError: pass`).  Python floats
(sizes in MB, timestamps in seconds) are modelled as rationals.
-/

/-! ## Character and list utilities (Python string semantics) -/

/-- Python `\s` for the `str` patterns used here (ASCII whitespace;
the exotic Unicode spaces are not exercised by this repository). -/
def isPySpace (c : Char) : Bool :=
  c = ' ' ∨ c = '\t' ∨ c = '\n' ∨ c = '\r' ∨ c = '\x0b' ∨ c = '\x0c'

/-- ASCII lower-casing, as performed by Python `str.lower` / `re.IGNORECASE`
on the ASCII letters appearing in this repository's patterns. -/
def pyCharLower (c : Char) : Char :=
  if 'A' ≤ c ∧ c ≤ 'Z' then Char.ofNat (c.toNat + 32) else c

def lowerList (cs : List Char) : List Char := cs.map pyCharLower

/-- Python `str.lower`. -/
def pyLower (s : String) : String := ⟨lowerList s.data⟩

/-- Python `str.strip()` (both ends, default whitespace). -/
def pyStripList (cs : List Char) : List Char :=
  ((cs.dropWhile isPySpace).reverse.dropWhile isPySpace).reverse

def pyStrip (s : String) : String := ⟨pyStripList s.data⟩

/-- First index at which a tail of `hay` satisfies `p` (leftmost regex-style
match position). -/
def findIdxTail (p : List Char → Bool) : List Char → Option Nat
  | [] => if p [] then some 0 else none
  | c :: t => if p (c :: t) then some 0 else (findIdxTail p t).map (· + 1)

/-- Leftmost index where `needle` occurs in `hay` (Python `str.find` /
the scan position of `re.sub`). -/
def findSub (needle hay : List Char) : Option Nat :=
  findIdxTail (fun t => needle.isPrefixOf t) hay

/-- Python substring containment `needle in hay`. -/
def strContains (hay needle : String) : Bool :=
  (findSub needle.data hay.data).isSome

/-- Python `s.split(sep, 1)`: split once at the leftmost occurrence. -/
def splitOnce (sep : String) (s : String) : Option (String × String) :=
  (findSub sep.data s.data).map fun i =>
    (⟨s.data.take i⟩, ⟨s.data.drop (i + sep.data.length)⟩)

/-- `endsWith` on raw character lists. -/
def endsWithList (cs suffix : List Char) : Bool :=
  suffix.isSuffixOf cs

/-- Case-insensitive `endsWith` (the argument `suffix` is given lower-case). -/
def endsWithCI (s : String) (suffix : String) : Bool :=
  endsWithList (lowerList s.data) suffix.data

/-- Python `s.split(sep)` for a one-character separator, on char lists
(every separator used with a full split in this repository is one character). -/
def splitChar (sep : Char) : List Char → List (List Char)
  | [] => [[]]
  | c :: t =>
    if c = sep then [] :: splitChar sep t
    else
      match splitChar sep t with
      | [] => [[c]]
      | h :: r => (c :: h) :: r

/-! ## POSIX path functions (`os.path` on the POSIX platform) -/

/-- Index one past the last `'/'` in `p`, or `0` when there is none
(`p.rfind('/') + 1` in `posixpath`). -/
def lastSepEnd (cs : List Char) : Nat :=
  match findSub ['/'] cs.reverse with
  | some i => cs.length - i
  | none => 0

/-- `os.path.dirname` (POSIX): the head `p[:i]`, with trailing slashes
stripped unless the head is all slashes. -/
def dirname (p : String) : String :=
  let cs := p.data
  let head := cs.take (lastSepEnd cs)
  if head ≠ [] ∧ head.any (· ≠ '/') then
    ⟨(head.reverse.dropWhile (· = '/')).reverse⟩
  else
    ⟨head⟩

/-- `os.path.basename` (POSIX). -/
def basename (p : String) : String :=
  ⟨p.data.drop (lastSepEnd p.data)⟩

/-- `os.path.join root file` for a relative `file`, as used with `os.walk`
output (POSIX). -/
def joinPath (root file : String) : String :=
  if root = "" then file
  else if endsWithList root.data ['/'] then root ++ file
  else root ++ "/" ++ file

/-- The extension part of `os.path.splitext` (POSIX): starts at the last dot
after the last separator, provided some earlier character of the basename is
not a dot (leading dots do not begin an extension). -/
def splitextExt (p : String) : String :=
  let cs := p.data
  let sepEnd := lastSepEnd cs
  match findSub ['.'] cs.reverse with
  | none => ""
  | some j =>
    let dotIdx := cs.length - 1 - j
    if sepEnd ≤ dotIdx ∧ ((cs.drop sepEnd).take (dotIdx - sepEnd)).any (· ≠ '.') then
      ⟨cs.drop dotIdx⟩
    else ""

/-- The root part of `os.path.splitext` (everything before the extension). -/
def splitextRoot (p : String) : String :=
  ⟨p.data.take (p.data.length - (splitextExt p).data.length)⟩

/-- One step of `posixpath.normpath`'s component loop: skip `''` and `'.'`,
push ordinary components, and let `'..'` pop the stack except at an
unanchored start or after an unpopped `'..'`. -/
def normpathPush (initialSlashes : Nat) (acc : List (List Char)) (comp : List Char) :
    List (List Char) :=
  if comp = [] ∨ comp = ['.'] then acc
  else if comp ≠ ['.', '.'] ∨ (initialSlashes = 0 ∧ acc = []) ∨
      acc.getLast? = some ['.', '.'] then
    acc ++ [comp]
  else if acc ≠ [] then acc.dropLast
  else acc

/-- `posixpath.normpath`. -/
def normpath (p : String) : String :=
  if p = "" then "." else
  let cs := p.data
  let initialSlashes : Nat :=
    if ['/', '/'].isPrefixOf cs ∧ ¬ ['/', '/', '/'].isPrefixOf cs then 2
    else if ['/'].isPrefixOf cs then 1 else 0
  let newComps := (splitChar '/' cs).foldl (normpathPush initialSlashes) []
  let path := List.replicate initialSlashes '/' ++ List.intercalate ['/'] newComps
  if path = [] then "." else ⟨path⟩

/-- `MusicFinder.normalize_path` (`src/core/music_finder.py:40`).  UNC-style
inputs are forced to backslash form; other paths are `os.path.normpath`-ed.
The `win32wnet` mapped-drive resolution is a no-op here: on a platform without
that module the `except ImportError: pass` branch is taken. -/
def pyStartsWith (s pre : String) : Bool := pre.data.isPrefixOf s.data

def normalize_path (path : String) : String :=
  if pyStartsWith path "\\\\" ∨ pyStartsWith path "//" then
    let p : String := ⟨path.data.map (fun c => if c = '/' then '\\' else c)⟩
    if ¬ pyStartsWith p "\\\\" then
      "\\\\" ++ ⟨p.data.dropWhile (fun c => c = '\\' ∨ c = '/')⟩
    else p
  else normpath path

/-! ## `src/core/file_info.py` — `FileInfo` and MD5 computation -/

/-- Round a fraction `num / den` (with `den > 0`) to the nearest integer,
ties to even: the rounding applied by Python's `f"{x:.2f}"` to the exact
value of the double `st_size / (1024*1024)` (exact for sizes below 2^53). -/
def roundHalfEvenDiv (num den : Nat) : Nat :=
  let q := num / den
  let r := num % den
  if 2 * r < den then q
  else if 2 * r > den then q + 1
  else if q % 2 = 0 then q else q + 1

/-- Two-digit zero-padded rendering of `n < 100`. -/
def twoDigits (n : Nat) : String :=
  (if n < 10 then "0" else "") ++ toString n

/-- The human-readable size `f"{stats.st_size / (1024*1024):.2f} MB"`
(`src/core/file_info.py:73`). -/
def fmtSizeMB (sizeBytes : Nat) : String :=
  let h := roundHalfEvenDiv (sizeBytes * 100) 1048576
  toString (h / 100) ++ "." ++ twoDigits (h % 100) ++ " MB"

/-- Outcome of one attempted MD5 read of a file: a successful digest, an
`IOError`, or any other exception. -/
inductive ReadOutcome where
  | ok (digest : String)
  | ioErr
  | otherErr
deriving DecidableEq

/-- The retry loop of `FileInfo._calculate_md5` (`src/core/file_info.py:35`),
with `remaining = max_retries - retries` as the structural fuel.  On a
successful read the digest is returned; a non-IO exception returns the
sentinel `""` at once; an `IOError` retries until `retries` would reach
`max_retries`, then returns `""`.  (The `remaining = 0` case models the
`while` loop falling through, unreachable from `calculate_md5` below.) -/
def calcMd5Go (attempts : Nat → ReadOutcome) (retries : Nat) : Nat → String
  | 0 => ""
  | remaining + 1 =>
    match attempts retries with
    | .ok d => d
    | .otherErr => ""
    | .ioErr => if remaining = 0 then "" else calcMd5Go attempts (retries + 1) remaining

/-- `FileInfo._calculate_md5` with the default `max_retries = 3`, as a function
of the per-attempt I/O outcomes. -/
def calculate_md5 (attempts : Nat → ReadOutcome) : String :=
  calcMd5Go attempts 0 3

/-- The I/O oracle: `os.stat` on files (size and mtime, `none` = raises),
`os.path.getmtime` on directories (`none` = raises), the outcomes of the MD5
read attempts per path, and the timezone-dependent
`time.strftime("%Y-%m-%d %H:%M:%S", time.localtime _)` rendering. -/
structure Env where
  stat : String → Option (Nat × ℚ)
  dirMtime : String → Option ℚ
  attempts : String → Nat → ReadOutcome
  strftime : ℚ → String

/-- The value of `FileInfo._calculate_md5` for a path under this oracle. -/
def Env.md5 (env : Env) (path : String) : String :=
  calculate_md5 (env.attempts path)

/-- `FileInfo` (`src/core/file_info.py:8`): path, human-readable size and
mtime strings, existence flag, and the byte size (`_size_bytes`).  The lazy
`_md5` field is modelled by `fileMd5` below (memoization of a pure oracle is
transparent). -/
structure FileInfo where
  path : String
  size : String
  mtime : String
  exists_ : Bool
  size_bytes : Nat
deriving DecidableEq

/-- `FileInfo.from_path` (`src/core/file_info.py:68`): on a successful
`os.stat`, the formatted size/mtime and the byte size; on any exception a
record with `exists = False` and zeroed fields. -/
def FileInfo.from_path (env : Env) (path : String) : FileInfo :=
  match env.stat path with
  | some (sz, mt) => ⟨path, fmtSizeMB sz, env.strftime mt, true, sz⟩
  | none => ⟨path, "N/A", "N/A", false, 0⟩

/-- The `FileInfo.md5` property (`src/core/file_info.py:23`): computed on
first use when the record exists; when `exists` is false the `_md5` field
stays `None`. -/
def fileMd5 (env : Env) (fi : FileInfo) : Option String :=
  if fi.exists_ then some (env.md5 fi.path) else none

/-- Truthiness of the `md5` property in `if md5:` — `None` and the sentinel
`""` are both falsy. -/
def md5Truthy : Option String → Bool
  | some s => s ≠ ""
  | none => false

/-! ## `src/core/file_index.py` — the persisted per-root index

The store is modelled as a map from the (normalized) root directory to the
content of its index file; `get_index_path` keys files by the MD5 of the root
string, which is injective on the roots of interest, so the root itself serves
as the key.  A stored file is either a parseable index document or malformed
content on which `json.load` (or a missing key) raises. -/

/-- One entry of the persisted `files` sequence:
`{path, size, mtime, exists}`. -/
structure IndexRecord where
  path : String
  size : Nat
  mtime : ℚ
  exists_ : Bool
deriving DecidableEq

/-- A parseable index document: `root_dir`, `timestamp`, `files`. -/
structure IndexContent where
  root_dir : String
  timestamp : ℚ
  files : List IndexRecord
deriving DecidableEq

/-- Content found at an index path: a parseable document, or content on
which parsing raises. -/
inductive StoredContent where
  | ok (content : IndexContent)
  | malformed
deriving DecidableEq

/-- The index directory: root key ↦ stored file content (`none` = absent). -/
def Store := String → Option StoredContent

/-- `FileIndex.save_index` (`src/core/file_index.py:23`): drop entries whose
path no longer exists, refresh each kept entry's `mtime` from the live
filesystem (the stored `size` field is carried over), and atomically replace
the index file — unless no valid entry remains, in which case nothing is
written. -/
def save_index (env : Env) (now : ℚ) (store : Store) (root_dir : String)
    (files : List IndexRecord) : Store :=
  let valid_files := files.filterMap fun f =>
    match env.stat f.path with
    | some (_, mt) => some (⟨f.path, f.size, mt, true⟩ : IndexRecord)
    | none => none
  if valid_files = [] then store
  else fun r =>
    if r = root_dir then some (.ok ⟨root_dir, now, valid_files⟩) else store r

/-- The validation test of `load_index` (`src/core/file_index.py:100`): the
path still exists, the live size matches exactly, and the live mtime is
within one second of the stored value. -/
def recordValid (env : Env) (f : IndexRecord) : Bool :=
  match env.stat f.path with
  | some (sz, mt) => sz = f.size ∧ |mt - f.mtime| < 1
  | none => false

/-- `FileIndex.load_index` (`src/core/file_index.py:77`): absent, malformed or
older-than-24h content is a cache miss (the stored file is not touched).
Otherwise each record is re-validated; if any were invalid, a compaction
`save_index` with the valid records is issued; if no valid record remains the
result is a cache miss.  Returns the result together with the store as left
behind. -/
def load_index (env : Env) (now : ℚ) (store : Store) (root_dir : String) :
    Option (List IndexRecord × ℚ) × Store :=
  match store root_dir with
  | none => (none, store)
  | some .malformed => (none, store)
  | some (.ok data) =>
    if (now - data.timestamp) / 3600 > 24 then (none, store)
    else
      let valid_files := data.files.filter (recordValid env)
      let invalid_files := data.files.filter (fun f => ¬ recordValid env f)
      let store' :=
        if invalid_files ≠ [] then save_index env now store root_dir valid_files
        else store
      if valid_files = [] then (none, store')
      else (some (valid_files, data.timestamp), store')

/-! ## `src/core/music_finder.py` — filename heuristics -/

/-- The character class `[%\.\s\-_]` of `normalize_artist_name`. -/
def inArtistPunct (c : Char) : Bool :=
  c = '%' ∨ c = '.' ∨ c = '-' ∨ c = '_' ∨ isPySpace c

/-- `re.sub(r'[%\.\s\-_]+', ' ', _)`: each maximal run of the class becomes a
single space (`prevInClass` records whether the previous character was in the
run being replaced). -/
def collapsePunct (prevInClass : Bool) : List Char → List Char
  | [] => []
  | c :: t =>
    if inArtistPunct c then
      if prevInClass then collapsePunct true t else ' ' :: collapsePunct true t
    else c :: collapsePunct false t

/-- `re.sub(pat ++ "$", "", s)` for a literal, case-insensitive pattern:
strip one trailing occurrence (`tag` is given lower-case). -/
def stripTrailing (tag : String) (s : String) : String :=
  if endsWithCI s tag then ⟨s.data.take (s.data.length - tag.data.length)⟩ else s

/-- `re.sub(pre ++ ".+$", "", s)` for a literal, case-insensitive stem `pre`:
truncate at the leftmost occurrence of `pre` that is followed by at least one
character (`pre` is given lower-case; filenames contain no newlines). -/
def stripFromStem (pre : String) (s : String) : String :=
  let low := lowerList s.data
  match findIdxTail (fun t => pre.data.isPrefixOf t ∧ t.length > pre.data.length) low with
  | some i => ⟨s.data.take i⟩
  | none => s

/-- `re.sub(r'[\(\（].+[\)\）]$', '', s)`: when the last character is a closing
parenthesis (ASCII or fullwidth), truncate at the leftmost opening parenthesis
that has at least one character before that closer. -/
def stripParenTrailer (s : String) : String :=
  match s.data.getLast? with
  | some c =>
    if c = ')' ∨ c = '）' then
      match findIdxTail
          (fun t => (t.head? = some '(' ∨ t.head? = some '（') ∧ t.length ≥ 3)
          s.data with
      | some i => ⟨s.data.take i⟩
      | none => s
    else s
  | none => s

/-- `MusicFinder.normalize_artist_name` (`src/core/music_finder.py:109`):
collapse the punctuation class, apply the removal patterns in order, then
`strip().lower()`.  (The patterns containing a literal dot or hyphen can no
longer match after the collapse, but are applied all the same.) -/
def normalize_artist_name (artist : String) : String :=
  let a := (⟨collapsePunct false artist.data⟩ : String)
  let a := stripTrailing "邓紫棋" a
  let a := stripTrailing "g.e.m" a
  let a := stripTrailing "阿妹" a
  let a := stripTrailing "a-mei" a
  let a := stripFromStem "feat." a
  let a := stripFromStem "ft." a
  let a := stripParenTrailer a
  let a := stripFromStem "翻自" a
  let a := stripFromStem "cover" a
  pyLower (pyStrip a)

/-- `re.sub(r'_\d{14}$', '', name)`: strip a trailing underscore plus exactly
fourteen ASCII digits. -/
def stripTimestampSuffix (name : String) : String :=
  let cs := name.data
  if cs.length ≥ 15 ∧ ((cs.drop (cs.length - 14)).all Char.isDigit) ∧
      cs.get? (cs.length - 15) = some '_' then
    ⟨cs.take (cs.length - 15)⟩
  else name

/-- The trailing title tags stripped by `parse_music_filename`
(given lower-case, applied in source order). -/
def titleTags : List String :=
  ["(live)", "(remix)", "(cover)", "(dj版)", "(纯音乐)", "(伴奏)", "(片段)", "(demo)"]

/-- `MusicFinder.parse_music_filename` (`src/core/music_finder.py:129`):
drop the extension, strip a 14-digit timestamp suffix, split once on
`" - "` into title/artist; with no separator the whole name is the title and
the artist is empty. -/
def parse_music_filename (filename : String) : String × String :=
  let name := pyStrip (splitextRoot filename)
  let name := stripTimestampSuffix name
  match splitOnce " - " name with
  | some (title, artist) =>
    (pyStrip (titleTags.foldl (fun t tag => stripTrailing tag t) title),
     normalize_artist_name artist)
  | none => (name, "")

/-- The FILENAME group key `f"{title}|{artist}" if artist else title`
(`src/core/music_finder.py:394`), from a record's basename. -/
def filenameKey (fi : FileInfo) : String :=
  let p := parse_music_filename (basename fi.path)
  if p.2 ≠ "" then p.1 ++ "|" ++ p.2 else p.1

/-! ## `src/core/music_finder.py` — duplicate grouping

Python's `defaultdict(list)` with `groups[key].append(x)` keeps keys in
first-seen order and elements in insertion order (`upsert`); plain dict
assignment `duplicates[label] = files` keeps an existing key's position and
replaces its value (`dictSet`). -/

def upsert {κ α : Type} [DecidableEq κ] (k : κ) (x : α) :
    List (κ × List α) → List (κ × List α)
  | [] => [(k, [x])]
  | (k', l) :: t => if k' = k then (k', l ++ [x]) :: t else (k', l) :: upsert k x t

def dictSet {κ ν : Type} [DecidableEq κ] (k : κ) (v : ν) :
    List (κ × ν) → List (κ × ν)
  | [] => [(k, v)]
  | (k', v') :: t => if k' = k then (k', v) :: t else (k', v') :: dictSet k v t

/-- A `for x in xs: if (k := g x) is not None: groups[k].append(x)` loop.
With `g = some ∘ f` this is exactly `groups[f(x)].append(x)`. -/
def optGroupFold {κ α : Type} [DecidableEq κ] (g : α → Option κ) (xs : List α) :
    List (κ × List α) :=
  xs.foldl (fun acc x => match g x with | some k => upsert k x acc | none => acc) []

/-- A `for k, files in groups.items(): if len(files) > 1: dups[label k files] = files`
loop over an already-built group list, threading the `duplicates` dict. -/
def collectDups {κ : Type} [DecidableEq κ] (label : κ → List FileInfo → String) :
    List (κ × List FileInfo) → List (String × List FileInfo) →
    List (String × List FileInfo)
  | [], acc => acc
  | (k, fs) :: t, acc =>
    collectDups label t (if fs.length > 1 then dictSet (label k fs) fs acc else acc)

/-- The size classes `size_groups` (`src/core/music_finder.py:336`). -/
def sizeGroups (files : List FileInfo) : List (Nat × List FileInfo) :=
  optGroupFold (fun fi => some fi.size_bytes) files

/-- The SIZE label `f"大小: {files[0].size}"` built from the human-readable
size string of the group's first record. -/
def sizeLabel (fs : List FileInfo) : String :=
  "大小: " ++ (fs.headD ⟨"", "", "", false, 0⟩).size

/-- SIZE-method duplicates (`src/core/music_finder.py:333`). -/
def sizeDuplicates (files : List FileInfo) : List (String × List FileInfo) :=
  collectDups (fun _ fs => sizeLabel fs) (sizeGroups files) []

/-- The key under which a record enters `md5_groups`: its `md5` property when
truthy (`if md5:`), else no group (`src/core/music_finder.py:357`). -/
def md5KeyOf (env : Env) (fi : FileInfo) : Option String :=
  match fileMd5 env fi with
  | some m => if m = "" then none else some m
  | none => none

def md5Groups (env : Env) (files : List FileInfo) : List (String × List FileInfo) :=
  optGroupFold (md5KeyOf env) files

/-- The HASH label `f"MD5: {md5[:8]}..."` — only the first eight characters
of the digest. -/
def md5Label (md5 : String) : String := "MD5: " ++ ⟨md5.data.take 8⟩ ++ "..."

/-- MD5-method duplicates (`src/core/music_finder.py:347`). -/
def md5Duplicates (env : Env) (files : List FileInfo) :
    List (String × List FileInfo) :=
  collectDups (fun k _ => md5Label k) (md5Groups env files) []

/-- The MIXED label `f"大小: {md5_files[0].size}, MD5: {md5[:8]}..."`. -/
def mixedLabel (k : String) (fs : List FileInfo) : String :=
  "大小: " ++ (fs.headD ⟨"", "", "", false, 0⟩).size ++ ", MD5: " ++
    ⟨k.data.take 8⟩ ++ "..."

/-- The outer loop of the MIXED method (`src/core/music_finder.py:376`): for
each size class with more than one record, sub-partition by MD5 and record
each sub-group with more than one record. -/
def mixedCollect (env : Env) : List (Nat × List FileInfo) →
    List (String × List FileInfo) → List (String × List FileInfo)
  | [], acc => acc
  | (_, fs) :: t, acc =>
    mixedCollect env t
      (if fs.length > 1 then collectDups mixedLabel (md5Groups env fs) acc else acc)

/-- MIXED-method duplicates (`src/core/music_finder.py:368`). -/
def mixedDuplicates (env : Env) (files : List FileInfo) :
    List (String × List FileInfo) :=
  mixedCollect env (sizeGroups files) []

/-- The FILENAME label
`f"歌曲: {name_key.split('|')[0]} ({len(files)}个版本)"`. -/
def filenameLabel (k : String) (fs : List FileInfo) : String :=
  "歌曲: " ++ ⟨(splitChar '|' k.data).headD []⟩ ++ " (" ++
    toString fs.length ++ "个版本)"

/-- FILENAME-method duplicates (`src/core/music_finder.py:388`). -/
def filenameDuplicates (files : List FileInfo) : List (String × List FileInfo) :=
  collectDups filenameLabel (optGroupFold (fun fi => some (filenameKey fi)) files) []

/-! ## `src/core/music_finder.py` — the index-assisted scan -/

/-- `MusicFinder.MUSIC_EXTENSIONS`. -/
def MUSIC_EXTENSIONS : List String :=
  [".mp3", ".wav", ".flac", ".aac", ".ogg", ".m4a", ".ape", ".wma"]

/-- `get_dir_mtime` (`src/core/music_finder.py:170`): the directory's mtime,
`0` when `os.path.getmtime` raises (the memo cache is transparent for a pure
oracle). -/
def get_dir_mtime (env : Env) (dir_path : String) : ℚ :=
  (env.dirMtime dir_path).getD 0

/-- `should_scan_dir` (`src/core/music_finder.py:233`): without an index scan
everything; with one, scan when the directory's own mtime, or the mtime of a
parent lying under the root, exceeds the index timestamp. -/
def should_scan_dir (env : Env) (root_dir : String) (index_time : ℚ)
    (hasIndex : Bool) (dir_path : String) : Bool :=
  if ¬ hasIndex then true
  else if get_dir_mtime env dir_path > index_time then true
  else
    let parent := dirname dir_path
    if parent ≠ "" ∧ pyStartsWith parent root_dir then
      get_dir_mtime env parent > index_time
    else false

/-- The loop over validated index records (`src/core/music_finder.py:195`):
a record is skipped when `os.path.relpath` raises on its empty parent, when
its parent directory's mtime exceeds the stored file mtime, or when the live
`FileInfo` does not exist; otherwise its fresh `FileInfo` is appended (and its
path becomes a known file). -/
def processIndexed (env : Env) : List IndexRecord → List FileInfo
  | [] => []
  | f :: t =>
    let dir_path := dirname f.path
    if dir_path = "" then processIndexed env t
    else if get_dir_mtime env dir_path > f.mtime then processIndexed env t
    else
      let fi := FileInfo.from_path env f.path
      if fi.exists_ then fi :: processIndexed env t else processIndexed env t

/-- A directory subtree as visited by `os.walk` (top-down): the directory's
path, its file names, and its subdirectories.  An unreadable root makes
`os.walk` yield nothing at all (`onerror=None`), modelled by `Option WalkDir`
at the top. -/
inductive WalkDir where
  | node (path : String) (files : List String) (subs : List WalkDir)

/-- The per-file body of the walk loop (`src/core/music_finder.py:270`):
skip known files, then unrecognized extensions, then files whose
`os.path.getsize` raises or is below `min_size_bytes`; finally build the
`FileInfo` and keep it when it exists. -/
def walkFile (env : Env) (min_size_mb : ℚ) (known : List String)
    (dirPath fname : String) : Option FileInfo :=
  let fp := joinPath dirPath fname
  if fp ∈ known then none
  else if ¬ (pyLower (splitextExt fp) ∈ MUSIC_EXTENSIONS) then none
  else
    match env.stat fp with
    | none => none
    | some (sz, _) =>
      if (sz : ℚ) < min_size_mb * 1024 * 1024 then none
      else
        let fi := FileInfo.from_path env fp
        if fi.exists_ then some fi else none

mutual
/-- The pruned `os.walk` loop (`src/core/music_finder.py:255`): a directory
failing `should_scan_dir`, or lying deeper than `max_depth` (when positive),
contributes nothing and its whole subtree is pruned (`dirs.clear()`);
otherwise its files are processed and its subdirectories visited in order.
`depth` counts path segments below the root
(`len(Path(os.path.relpath(dir, root)).parts)`). -/
def walkCollect (env : Env) (hasIndex : Bool) (index_time : ℚ)
    (root_dir : String) (max_depth : Nat) (min_size_mb : ℚ)
    (known : List String) (depth : Nat) : WalkDir → List FileInfo
  | .node p files subs =>
    if ¬ should_scan_dir env root_dir index_time hasIndex p then []
    else if max_depth > 0 ∧ depth ≠ 0 ∧ depth > max_depth then []
    else
      files.filterMap (walkFile env min_size_mb known p) ++
        walkCollectList env hasIndex index_time root_dir max_depth min_size_mb
          known (depth + 1) subs

def walkCollectList (env : Env) (hasIndex : Bool) (index_time : ℚ)
    (root_dir : String) (max_depth : Nat) (min_size_mb : ℚ)
    (known : List String) (depth : Nat) : List WalkDir → List FileInfo
  | [] => []
  | d :: t =>
    walkCollect env hasIndex index_time root_dir max_depth min_size_mb known
        depth d ++
      walkCollectList env hasIndex index_time root_dir max_depth min_size_mb
        known depth t
end

/-- The scan phase of `find_duplicates` (`src/core/music_finder.py:181-302`):
rehydrate validated index records, then walk for new files skipping known
paths; result is the merged file list and the count of newly found files. -/
def scanPhase (env : Env) (idxRes : Option (List IndexRecord × ℚ))
    (root_dir : String) (walk : Option WalkDir) (max_depth : Nat)
    (min_size_mb : ℚ) : List FileInfo × Nat :=
  let kept := match idxRes with
    | some (recs, _) => processIndexed env recs
    | none => []
  let known := kept.map (·.path)
  let index_time := match idxRes with | some (_, t) => t | none => 0
  let newFiles := match walk with
    | some w =>
      walkCollect env idxRes.isSome index_time root_dir max_depth min_size_mb
        known 0 w
    | none => []
  (kept ++ newFiles, newFiles.length)

/-- `DuplicateCheckMethod` (`src/core/enums.py`). -/
inductive DuplicateCheckMethod where
  | FILENAME | SIZE | MD5 | MIXED
deriving DecidableEq

/-- The classification dispatch of `find_duplicates`
(`src/core/music_finder.py:330-401`).  (The classification `except` branch,
which would return an empty map, is unreachable in this pure model.) -/
def classify (env : Env) (method : DuplicateCheckMethod)
    (all_files : List FileInfo) : List (String × List FileInfo) :=
  match method with
  | .SIZE => sizeDuplicates all_files
  | .MD5 => md5Duplicates env all_files
  | .MIXED => mixedDuplicates env all_files
  | .FILENAME => filenameDuplicates all_files

/-- `MusicFinder.find_duplicates` (`src/core/music_finder.py:153`): normalize
the root, load the index, merge cached and newly walked records, rewrite the
index when new files appeared or the merged count drifted, then group by the
chosen method.  Returns `(duplicates, total files)` and the store as left
behind. -/
def find_duplicates (env : Env) (store : Store) (root_dir : String)
    (method : DuplicateCheckMethod) (walk : Option WalkDir) (max_depth : Nat)
    (min_size_mb : ℚ) (now : ℚ) :
    (List (String × List FileInfo) × Nat) × Store :=
  let root := normalize_path root_dir
  let (idxRes, store₁) := load_index env now store root
  let (all_files, new_count) := scanPhase env idxRes root walk max_depth min_size_mb
  let store₂ :=
    if new_count > 0 ∨ (match idxRes with
        | some (recs, _) => all_files.length != recs.length
        | none => false) = true then
      let index_data := all_files.filterMap fun fi =>
        match env.stat fi.path with
        | some (_, mt) => some (⟨fi.path, fi.size_bytes, mt, true⟩ : IndexRecord)
        | none => none
      if index_data ≠ [] then save_index env now store₁ root index_data else store₁
    else store₁
  ((classify env method all_files, all_files.length), store₂)

/-! ## `src/gui/widgets/file_tree.py` — the deletion-selection ranking

`auto_select_duplicates` rebuilds per-file dicts from the tree columns: the
size is `float(text.replace(" MB", ""))` — the two-decimal MB display value —
and the mtime is `time.mktime(time.strptime(text))`, seconds at second
precision.  `_select_files_to_delete` then sorts those dicts and marks every
record after the first for deletion. -/

/-- The per-file dict handed to `_select_files_to_delete`
(`src/gui/widgets/file_tree.py:237`): tree item identity, path, lower-cased
extension, displayed size in MB, mtime in seconds, and the format priority
`settings['format_priority'].get(ext, 999)`. -/
structure FRec where
  item : Nat
  path : String
  ext : String
  size : ℚ
  mtime : ℚ
  priority : ℤ
deriving DecidableEq

/-- The settings dict produced by `DuplicateSettingsDialog.get_settings`
(`src/gui/dialogs/duplicate_settings_dialog.py:85`). -/
structure DupSettings where
  format_priority : List (String × ℤ)
  prefer_larger : Bool
  exclude_dirs : List String
  delete_dirs : List String
  keep_oldest : Bool
  skip_different_names : Bool

/-- `settings['format_priority'].get(ext, 999)`
(`src/gui/widgets/file_tree.py:243`). -/
def priorityOf (format_priority : List (String × ℤ)) (ext : String) : ℤ :=
  ((format_priority.find? (fun p => p.1 = ext)).map (·.2)).getD 999

/-- `any(d.lower() in file['path'].lower() for d in delete_dirs)`
(`src/gui/widgets/file_tree.py:271`). -/
def in_delete_dir (delete_dirs : List String) (path : String) : Bool :=
  delete_dirs.any (fun d => strContains (pyLower path) (pyLower d))

/-- False sorts before True, as in Python. -/
def boolKey : Bool → Nat
  | false => 0
  | true => 1

/-- Lexicographic comparison of the 4-tuple sort keys. -/
def lex4LE (x y : Nat × ℤ × ℚ × ℚ) : Bool :=
  if x.1 ≠ y.1 then x.1 < y.1
  else if x.2.1 ≠ y.2.1 then x.2.1 < y.2.1
  else if x.2.2.1 ≠ y.2.2.1 then x.2.2.1 < y.2.2.1
  else x.2.2.2 ≤ y.2.2.2

/-- The sort key of `_select_files_to_delete`
(`src/gui/widgets/file_tree.py:277`):
`(in_delete_dir, priority, size if prefer_larger else -size,
-mktime if keep_oldest else mktime)`. -/
def fileSortKey (s : DupSettings) (f : FRec) : Nat × ℤ × ℚ × ℚ :=
  (boolKey (in_delete_dir s.delete_dirs f.path),
   f.priority,
   if s.prefer_larger then f.size else -f.size,
   if s.keep_oldest then -f.mtime else f.mtime)

/-- Stable insertion into an ascending list: the new element goes before the
first element it compares `≤` to.  `stableSort` below is extensionally equal
to Python's stable `list.sort` for a total preorder `le`. -/
def stableInsert {α : Type} (le : α → α → Bool) (x : α) : List α → List α
  | [] => [x]
  | y :: t => if le x y then x :: y :: t else y :: stableInsert le x t

def stableSort {α : Type} (le : α → α → Bool) : List α → List α
  | [] => []
  | x :: t => stableInsert le x (stableSort le t)

/-- `FileTreeWidget._select_files_to_delete`
(`src/gui/widgets/file_tree.py:263`): sort ascending by `fileSortKey` and
select every record after the first; the returned list is the selected
(to-delete) records in sorted order. -/
def select_files_to_delete (files : List FRec) (s : DupSettings) : List FRec :=
  if files = [] then []
  else (stableSort (fun a b => lex4LE (fileSortKey s a) (fileSortKey s b)) files).drop 1

/-- Modelled from the spec: the ranking tuple of §4.6/§6 —
`(inDeleteDir, formatPriority, sizeKey, timeKey)` with `sizeKey` the size
*descending* when `preferLargerSize` is set (ascending otherwise) and
`timeKey` the modification time *ascending* (older first) when `preferOldest`
is set (descending otherwise). -/
def specSortKey (s : DupSettings) (f : FRec) : Nat × ℤ × ℚ × ℚ :=
  (boolKey (in_delete_dir s.delete_dirs f.path),
   f.priority,
   if s.prefer_larger then -f.size else f.size,
   if s.keep_oldest then f.mtime else -f.mtime)

/-- Modelled from the spec: `selectForDeletion` under the spec's ranking —
sort ascending by `specSortKey`, keep the first, select the rest. -/
def spec_select_for_deletion (files : List FRec) (s : DupSettings) : List FRec :=
  if files = [] then []
  else (stableSort (fun a b => lex4LE (specSortKey s a) (specSortKey s b)) files).drop 1

/-! ## Derived characterizations and concrete instances used by the claims -/

/-- The mtime component of a successful `os.stat`, `0` when absent (only used
under a hypothesis that the stat succeeds). -/
def statMtime (env : Env) (path : String) : ℚ :=
  ((env.stat path).map (·.2)).getD 0

/-- Declarative form of the conditions under which the indexed-records loop
keeps a record: non-empty parent dirname (else `os.path.relpath` raises), the
parent directory's mtime does not exceed the stored file mtime, and the live
record exists. -/
def keepRecord (env : Env) (f : IndexRecord) : Bool :=
  dirname f.path ≠ "" ∧ ¬ get_dir_mtime env (dirname f.path) > f.mtime ∧
    (FileInfo.from_path env f.path).exists_

/-- The cached records that survive the merge phase, as fresh `FileInfo`s. -/
def rehydratedRecords (env : Env) (recs : List IndexRecord) : List FileInfo :=
  (recs.filter (keepRecord env)).map (fun f => FileInfo.from_path env f.path)

/-- The newly discovered records of a scan whose index loaded `recs` at
timestamp `t`. -/
def newWalkFiles (env : Env) (recs : List IndexRecord) (t : ℚ) (root_dir : String)
    (walk : Option WalkDir) (max_depth : Nat) (min_size_mb : ℚ) : List FileInfo :=
  match walk with
  | some w =>
    walkCollect env true t root_dir max_depth min_size_mb
      ((rehydratedRecords env recs).map (·.path)) 0 w
  | none => []

/-- A trivial oracle: every filesystem access fails. -/
def envEmpty : Env := ⟨fun _ => none, fun _ => none, fun _ _ => .otherErr, fun _ => ""⟩

/-- An empty index directory. -/
def storeEmpty : Store := fun _ => none

/-- C2 scenario: one indexed file `root/a/f1.mp3` (size 100, mtime 10) that
still stats identically, inside a directory of mtime 20 under a root of
mtime 5; the index was stamped at time 30. -/
def rC2 : IndexRecord := ⟨"root/a/f1.mp3", 100, 10, true⟩

def envC2 : Env :=
  { stat := fun p => if p = "root/a/f1.mp3" then some (100, 10) else none
    dirMtime := fun p =>
      if p = "root/a" then some 20 else if p = "root" then some 5 else none
    attempts := fun _ _ => .otherErr
    strftime := fun _ => "" }

def storeC2 : Store :=
  fun r => if r = "root" then some (.ok ⟨"root", 30, [rC2]⟩) else none

def walkC2 : WalkDir := .node "root" [] [.node "root/a" ["f1.mp3"] []]

/-- C3 scenario: malformed content persisted under the root's index key. -/
def storeC3 : Store := fun r => if r = "root" then some .malformed else none

/-- C4 counterexample scenario: a fresh index whose single record's file no
longer exists. -/
def rC4 : IndexRecord := ⟨"root/x.mp3", 100, 10, true⟩

def storeC4 : Store :=
  fun r => if r = "root" then some (.ok ⟨"root", 0, [rC4]⟩) else none

/-- C4 witness scenario: record `a` revalidates (live mtime drifted by 1/2
second), record `b`'s file is gone. -/
def raC4 : IndexRecord := ⟨"root/a.mp3", 100, 10, true⟩

def rbC4 : IndexRecord := ⟨"root/b.mp3", 200, 10, true⟩

def envC4 : Env :=
  { stat := fun p => if p = "root/a.mp3" then some (100, 21 / 2) else none
    dirMtime := fun _ => none
    attempts := fun _ _ => .otherErr
    strftime := fun _ => "" }

def storeC4w : Store :=
  fun r => if r = "root" then some (.ok ⟨"root", 0, [raC4, rbC4]⟩) else none

/-- C5 witness scenario: two existing files whose reads succeed with the same
digest on the first attempt. -/
def envC5 : Env :=
  { stat := fun p => if p = "p1" ∨ p = "p2" then some (7, 0) else none
    dirMtime := fun _ => none
    attempts := fun _ _ => .ok "d1d2d3d4e5"
    strftime := fun _ => "" }

def fileC5a : FileInfo := FileInfo.from_path envC5 "p1"

def fileC5b : FileInfo := FileInfo.from_path envC5 "p2"

/-- C6 witness scenario: two same-size files with equal digests and one
differently-sized file. -/
def envC6 : Env :=
  { stat := fun p =>
      if p = "q1" ∨ p = "q2" then some (5, 0)
      else if p = "q3" then some (9, 0) else none
    dirMtime := fun _ => none
    attempts := fun _ _ => .ok "abcdefabcdef"
    strftime := fun _ => "" }

def fileC6a : FileInfo := FileInfo.from_path envC6 "q1"

def fileC6b : FileInfo := FileInfo.from_path envC6 "q2"

def fileC6c : FileInfo := FileInfo.from_path envC6 "q3"

/-- C8 scenario: the two filenames of the spec's FILENAME scenario. -/
def envC8 : Env :=
  { stat := fun p =>
      if p = "root/Song - Artist.mp3" then some (1000, 5)
      else if p = "root/Song - Artist (Live).mp3" then some (2000, 6) else none
    dirMtime := fun _ => none
    attempts := fun _ _ => .otherErr
    strftime := fun _ => "t" }

def fileC8a : FileInfo := FileInfo.from_path envC8 "root/Song - Artist.mp3"

def fileC8b : FileInfo := FileInfo.from_path envC8 "root/Song - Artist (Live).mp3"

/-- C9 scenario: sizes 0 and 1 byte both display as "0.00 MB"; digests
sharing their first eight characters. -/
def envC9 : Env :=
  { stat := fun p =>
      if p = "a1" ∨ p = "a2" then some (0, 0)
      else if p = "b1" ∨ p = "b2" then some (1, 0) else none
    dirMtime := fun _ => none
    attempts := fun p _ =>
      if p = "a1" ∨ p = "a2" then .ok "aaaaaaaa01" else .ok "aaaaaaaa02"
    strftime := fun _ => "" }

def fileC9a1 : FileInfo := FileInfo.from_path envC9 "a1"

def fileC9a2 : FileInfo := FileInfo.from_path envC9 "a2"

def fileC9b1 : FileInfo := FileInfo.from_path envC9 "b1"

def fileC9b2 : FileInfo := FileInfo.from_path envC9 "b2"

/-- C10 witness scenario: a rehydratable indexed record of 100 bytes, far
below the 1 MB minimum-size filter. -/
def rC10 : IndexRecord := ⟨"root/a/f.mp3", 100, 10, true⟩

def envC10 : Env :=
  { stat := fun p => if p = "root/a/f.mp3" then some (100, 10) else none
    dirMtime := fun p => if p = "root/a" then some 5 else none
    attempts := fun _ _ => .otherErr
    strftime := fun _ => "" }

/-- C1 scenario: two records differing only in size (1 MB vs 2 MB), and two
records differing only in mtime, with settings asking to keep the larger /
the oldest file. -/
def c1SizeSettings : DupSettings :=
  ⟨[(".mp3", 1)], true, [], [], false, false⟩

def c1TimeSettings : DupSettings :=
  ⟨[(".mp3", 1)], false, [], [], true, false⟩

def c1Small : FRec := ⟨0, "root/a/x.mp3", ".mp3", 1, 100, 1⟩

def c1Big : FRec := ⟨1, "root/b/y.mp3", ".mp3", 2, 100, 1⟩

def c1Old : FRec := ⟨2, "root/a/x.mp3", ".mp3", 1, 100, 1⟩

def c1New : FRec := ⟨3, "root/b/y.mp3", ".mp3", 1, 200, 1⟩

/-! ## Generic lemmas about the grouping loops -/

theorem mem_upsert_prop {κ α : Type} [DecidableEq κ] {P : κ → α → Prop}
    {k : κ} {x : α} {acc : List (κ × List α)}
    (hacc : ∀ q ∈ acc, ∀ a ∈ q.2, P q.1 a) (hx : P k x) :
    ∀ q ∈ upsert k x acc, ∀ a ∈ q.2, P q.1 a := by
  induction acc with
  | nil =>
    intro q hq a ha
    simp only [upsert, List.mem_singleton] at hq
    subst hq
    simp only [List.mem_singleton] at ha
    subst ha
    exact hx
  | cons p t ih =>
    obtain ⟨k', l⟩ := p
    intro q hq a ha
    by_cases h : k' = k
    · simp only [upsert, if_pos h, List.mem_cons] at hq
      rcases hq with hq | hq
      · subst hq
        simp only [List.mem_append, List.mem_singleton] at ha
        rcases ha with ha | ha
        · exact hacc (k', l) (List.mem_cons_self _ _) a ha
        · subst ha; rw [show k' = k from h]; exact hx
      · exact hacc q (List.mem_cons_of_mem _ hq) a ha
    · simp only [upsert, if_neg h, List.mem_cons] at hq
      rcases hq with hq | hq
      · subst hq; exact hacc (k', l) (List.mem_cons_self _ _) a ha
      · exact ih (fun q hq => hacc q (List.mem_cons_of_mem _ hq)) q hq a ha

theorem optGroupFold_foldl_prop {κ α : Type} [DecidableEq κ] {g : α → Option κ}
    (P : κ → α → Prop) :
    ∀ (xs : List α) (acc : List (κ × List α)),
      (∀ q ∈ acc, ∀ a ∈ q.2, P q.1 a) →
      (∀ x ∈ xs, ∀ k, g x = some k → P k x) →
      ∀ q ∈ xs.foldl
        (fun acc x => match g x with | some k => upsert k x acc | none => acc) acc,
        ∀ a ∈ q.2, P q.1 a := by
  intro xs
  induction xs with
  | nil => intro acc hacc _ q hq; exact hacc q hq
  | cons x t ih =>
    intro acc hacc hxs q hq a ha
    simp only [List.foldl_cons] at hq
    rcases hgx : g x with _ | k
    · rw [hgx] at hq
      exact ih acc hacc (fun y hy => hxs y (List.mem_cons_of_mem _ hy)) q hq a ha
    · rw [hgx] at hq
      exact ih (upsert k x acc)
        (mem_upsert_prop hacc (hxs x (List.mem_cons_self _ _) k hgx))
        (fun y hy => hxs y (List.mem_cons_of_mem _ hy)) q hq a ha

/-- Every element of a group built by `optGroupFold` satisfies `g a = some key`
and comes from the input list. -/
theorem optGroupFold_prop {κ α : Type} [DecidableEq κ] {g : α → Option κ}
    (xs : List α) :
    ∀ q ∈ optGroupFold g xs, ∀ a ∈ q.2, g a = some q.1 ∧ a ∈ xs := by
  intro q hq a ha
  exact optGroupFold_foldl_prop (fun k a => g a = some k ∧ a ∈ xs) xs []
    (by simp) (fun x hx k hk => ⟨hk, hx⟩) q hq a ha

theorem dictSet_prop {κ ν : Type} [DecidableEq κ] {P : ν → Prop}
    {k : κ} {v : ν} {acc : List (κ × ν)}
    (hacc : ∀ q ∈ acc, P q.2) (hv : P v) :
    ∀ q ∈ dictSet k v acc, P q.2 := by
  induction acc with
  | nil =>
    intro q hq
    simp only [dictSet, List.mem_singleton] at hq
    subst hq; exact hv
  | cons p t ih =>
    obtain ⟨k', v'⟩ := p
    intro q hq
    by_cases h : k' = k
    · simp only [dictSet, if_pos h, List.mem_cons] at hq
      rcases hq with hq | hq
      · subst hq; exact hv
      · exact hacc q (List.mem_cons_of_mem _ hq)
    · simp only [dictSet, if_neg h, List.mem_cons] at hq
      rcases hq with hq | hq
      · subst hq; exact hacc (k', v') (List.mem_cons_self _ _)
      · exact ih (fun q hq => hacc q (List.mem_cons_of_mem _ hq)) q hq

theorem collectDups_prop {κ : Type} [DecidableEq κ]
    {label : κ → List FileInfo → String} (P : List FileInfo → Prop) :
    ∀ (groups : List (κ × List FileInfo)) (acc : List (String × List FileInfo)),
      (∀ q ∈ acc, P q.2) →
      (∀ p ∈ groups, p.2.length > 1 → P p.2) →
      ∀ q ∈ collectDups label groups acc, P q.2 := by
  intro groups
  induction groups with
  | nil => intro acc hacc _ q hq; exact hacc q hq
  | cons p t ih =>
    obtain ⟨k, fs⟩ := p
    intro acc hacc hg q hq
    simp only [collectDups] at hq
    by_cases hl : fs.length > 1
    · rw [if_pos hl] at hq
      exact ih (dictSet (label k fs) fs acc)
        (dictSet_prop hacc (hg (k, fs) (List.mem_cons_self _ _) hl))
        (fun p hp => hg p (List.mem_cons_of_mem _ hp)) q hq
    · rw [if_neg hl] at hq
      exact ih acc hacc (fun p hp => hg p (List.mem_cons_of_mem _ hp)) q hq

theorem mixedCollect_prop (env : Env) (P : List FileInfo → Prop) :
    ∀ (gl : List (Nat × List FileInfo)) (acc : List (String × List FileInfo)),
      (∀ q ∈ acc, P q.2) →
      (∀ p ∈ gl, p.2.length > 1 →
        ∀ mg ∈ md5Groups env p.2, mg.2.length > 1 → P mg.2) →
      ∀ q ∈ mixedCollect env gl acc, P q.2 := by
  intro gl
  induction gl with
  | nil => intro acc hacc _ q hq; exact hacc q hq
  | cons p t ih =>
    obtain ⟨sz, fs⟩ := p
    intro acc hacc hg q hq
    simp only [mixedCollect] at hq
    by_cases hl : fs.length > 1
    · rw [if_pos hl] at hq
      refine ih _ ?_ (fun p hp => hg p (List.mem_cons_of_mem _ hp)) q hq
      exact collectDups_prop P (md5Groups env fs) acc hacc
        (fun mg hmg hlen => hg (sz, fs) (List.mem_cons_self _ _) hl mg hmg hlen)
    · rw [if_neg hl] at hq
      exact ih acc hacc (fun p hp => hg p (List.mem_cons_of_mem _ hp)) q hq

theorem md5KeyOf_eq {env : Env} {a : FileInfo} {k : String}
    (h : md5KeyOf env a = some k) : fileMd5 env a = some k ∧ k ≠ "" := by
  unfold md5KeyOf at h
  rcases hm : fileMd5 env a with _ | m
  · rw [hm] at h; exact absurd h (by simp)
  · rw [hm] at h
    dsimp only at h
    by_cases he : m = ""
    · rw [if_pos he] at h; exact absurd h (by simp)
    · rw [if_neg he] at h
      simp only [Option.some.injEq] at h
      exact ⟨by rw [h], by rw [← h]; exact he⟩

/-! ## Helper lemmas for the scan-phase characterization -/

theorem processIndexed_eq (env : Env) :
    ∀ recs : List IndexRecord, processIndexed env recs = rehydratedRecords env recs := by
  intro recs
  induction recs with
  | nil => rfl
  | cons f t ih =>
    have hfc : rehydratedRecords env (f :: t) =
        if keepRecord env f then
          FileInfo.from_path env f.path :: rehydratedRecords env t
        else rehydratedRecords env t := by
      unfold rehydratedRecords
      rw [List.filter_cons]
      by_cases hk : keepRecord env f
      · rw [if_pos hk, if_pos hk, List.map_cons]
      · rw [if_neg hk, if_neg hk]
    rw [hfc]
    by_cases h1 : dirname f.path = ""
    · have hk : ¬ (keepRecord env f = true) := by simp [keepRecord, h1]
      rw [if_neg hk, ← ih]
      simp only [processIndexed, if_pos h1]
    · by_cases h2 : get_dir_mtime env (dirname f.path) > f.mtime
      · have hk : ¬ (keepRecord env f = true) := by simp [keepRecord, h1, h2]
        rw [if_neg hk, ← ih]
        simp only [processIndexed, if_neg h1, if_pos h2]
      · by_cases h3 : (FileInfo.from_path env f.path).exists_ = true
        · have hk : keepRecord env f = true := by simp [keepRecord, h1, h2, h3]
          rw [if_pos hk, ← ih]
          simp only [processIndexed, if_neg h1, if_neg h2, h3, if_true]
        · have hk : ¬ (keepRecord env f = true) := by simp [keepRecord, h3]
          rw [if_neg hk, ← ih]
          simp only [processIndexed, if_neg h1, if_neg h2]
          rw [if_neg h3]

theorem scanPhase_merge_eq (env : Env) (recs : List IndexRecord) (t : ℚ)
    (root : String) (walk : Option WalkDir) (maxD : Nat) (minMb : ℚ) :
    scanPhase env (some (recs, t)) root walk maxD minMb =
      (rehydratedRecords env recs ++ newWalkFiles env recs t root walk maxD minMb,
       (newWalkFiles env recs t root walk maxD minMb).length) := by
  unfold scanPhase newWalkFiles
  dsimp only
  rw [processIndexed_eq]
  rw [show (some (recs, t)).isSome = true from rfl]

theorem filterMap_stat_eq_map (env : Env) :
    ∀ l : List IndexRecord, (∀ f ∈ l, ∃ sz mt, env.stat f.path = some (sz, mt)) →
      (l.filterMap fun f =>
        match env.stat f.path with
        | some (_, mt) => some (⟨f.path, f.size, mt, true⟩ : IndexRecord)
        | none => none) =
      l.map fun f => (⟨f.path, f.size, statMtime env f.path, true⟩ : IndexRecord) := by
  intro l
  induction l with
  | nil => intro _; rfl
  | cons f t ih =>
    intro h
    obtain ⟨sz, mt, hs⟩ := h f (List.mem_cons_self _ _)
    have hm : statMtime env f.path = mt := by unfold statMtime; rw [hs]; rfl
    simp only [List.filterMap_cons, List.map_cons, hs, hm]
    rw [ih (fun g hg => h g (List.mem_cons_of_mem _ hg))]

theorem load_index_envC2 :
    load_index envC2 30 storeC2 "root" = (some ([rC2], 30), storeC2) := by
  have hv : recordValid envC2 rC2 = true := by
    unfold recordValid envC2 rC2
    norm_num
  unfold load_index
  rw [show storeC2 "root" = some (.ok ⟨"root", 30, [rC2]⟩) from rfl]
  dsimp only
  rw [if_neg (show ¬ ((30 : ℚ) - 30) / 3600 > 24 by norm_num)]
  simp [hv]

theorem recordValid_raC4 : recordValid envC4 raC4 = true := by
  unfold recordValid envC4 raC4
  norm_num [abs_lt]

theorem recordValid_rbC4 : recordValid envC4 rbC4 = false := by
  unfold recordValid envC4 rbC4
  simp

/-! ## The claims -/

/-- C1: the spec's ranking tuple asks `selectForDeletion` to keep the larger
file when `preferLargerSize` is set (size key descending) and the oldest file
when `preferOldest` is set (time key ascending); the sort in
`_select_files_to_delete` uses the opposite directions for both keys
(`x['size'] if prefer_larger else -x['size']` and
`-mktime if keep_oldest else mktime`), contradicting the code's own setting
labels "保留大文件" (keep the large file) and "优先保留最早的文件" (keep the
earliest file).  At the failing inputs the code selects the 2 MB file for
deletion although `prefer_larger` is set, and the older file although
`keep_oldest` is set, while the spec's ranking selects the other one. -/
theorem c1_selection_inverts_size_and_time_preference :
    select_files_to_delete [c1Small, c1Big] c1SizeSettings = [c1Big] ∧
    spec_select_for_deletion [c1Small, c1Big] c1SizeSettings = [c1Small] ∧
    select_files_to_delete [c1Old, c1New] c1TimeSettings = [c1Old] ∧
    spec_select_for_deletion [c1Old, c1New] c1TimeSettings = [c1New] := by
  decide

/-- C2 counterexample: the record `rC2` passes index validation at load time
(the load returns it), yet the scan's result is empty — the validated cached
record is silently dropped, because its parent directory's mtime (20) exceeds
the stored file mtime (10) in the merge loop while the walk prunes the
unchanged root (mtime 5 ≤ index timestamp 30). -/
theorem c2_counterexample :
    (load_index envC2 30 storeC2 "root").1 = some ([rC2], 30) ∧
    (find_duplicates envC2 storeC2 "root" .SIZE (some walkC2) 0 0 30).1 = ([], 0) := by
  constructor
  · rw [load_index_envC2]
  · unfold find_duplicates
    rw [show normalize_path "root" = "root" from rfl]
    dsimp only
    rw [load_index_envC2]
    decide

/-- C2 amended: the scan result over a valid loaded index equals the union of
the *rehydrated* cached records — those validated records whose parent dirname
is non-empty, whose parent directory mtime does not exceed the stored file
mtime, and which still stat as existing — and the newly discovered records;
validated records failing these merge-phase re-checks are dropped. -/
theorem c2_amended (env : Env) (recs : List IndexRecord) (t : ℚ) (root : String)
    (walk : Option WalkDir) (maxD : Nat) (minMb : ℚ) :
    scanPhase env (some (recs, t)) root walk maxD minMb =
      (rehydratedRecords env recs ++ newWalkFiles env recs t root walk maxD minMb,
       (newWalkFiles env recs t root walk maxD minMb).length) :=
  scanPhase_merge_eq env recs t root walk maxD minMb

/-- C3 counterexample: with malformed content persisted for the root, `load`
returns a cache miss, but the corrupt content is still at its original path —
it is left in place, not renamed aside. -/
theorem c3_counterexample :
    (load_index envEmpty 0 storeC3 "root").1 = none ∧
    (load_index envEmpty 0 storeC3 "root").2 "root" = some .malformed := by
  decide

/-- C3 amended: malformed persisted content is treated as a cache miss and
the store is left entirely unchanged (the corrupt file is neither deleted nor
renamed); the scan then proceeds from a cold cache. -/
theorem c3_amended (env : Env) (now : ℚ) (store : Store) (root : String)
    (h : store root = some .malformed) :
    load_index env now store root = (none, store) := by
  unfold load_index
  rw [h]

theorem c3_witness :
    storeC3 "root" = some StoredContent.malformed ∧
    load_index envEmpty 0 storeC3 "root" = (none, storeC3) :=
  ⟨rfl, c3_amended envEmpty 0 storeC3 "root" rfl⟩

/-- C4 counterexample: a fresh index whose single record fails re-validation
(its file is gone).  A record was dropped, yet no compaction save with the
remaining (empty) valid set happens: `save_index` returns without writing when
no valid record remains, so the stale content — still containing the invalid
record — is left in place, and the load is a cache miss. -/
theorem c4_counterexample :
    (load_index envC4 0 storeC4 "root").1 = none ∧
    (load_index envC4 0 storeC4 "root").2 "root" = some (.ok ⟨"root", 0, [rC4]⟩) := by
  have hv : recordValid envC4 rC4 = false := by
    unfold recordValid envC4 rC4
    simp
  unfold load_index
  rw [show storeC4 "root" = some (.ok ⟨"root", 0, [rC4]⟩) from rfl]
  dsimp only
  rw [if_neg (show ¬ ((0 : ℚ) - 0) / 3600 > 24 by norm_num)]
  simp [hv, save_index, storeC4]

/-- C4 amended: on a fresh parseable index, each stored record is kept exactly
when its live size matches and its live mtime is within one second; if some
record was dropped *and at least one valid record remains*, a compaction save
is issued whose content is exactly the remaining valid records — same paths
and sizes, with mtimes refreshed from the live stat (when no valid record
remains, no save happens and the stale file stays, per `c4_counterexample`). -/
theorem c4_amended (env : Env) (now : ℚ) (store : Store) (root : String)
    (data : IndexContent)
    (h1 : store root = some (.ok data))
    (h2 : ¬ (now - data.timestamp) / 3600 > 24)
    (h3 : data.files.filter (fun f => ¬ recordValid env f) ≠ [])
    (h4 : data.files.filter (recordValid env) ≠ []) :
    (load_index env now store root).1 =
      some (data.files.filter (recordValid env), data.timestamp) ∧
    (load_index env now store root).2 root =
      some (.ok ⟨root, now,
        (data.files.filter (recordValid env)).map
          (fun f => ⟨f.path, f.size, statMtime env f.path, true⟩)⟩) := by
  have hstat : ∀ f ∈ data.files.filter (recordValid env),
      ∃ sz mt, env.stat f.path = some (sz, mt) := by
    intro f hf
    have hvf : recordValid env f = true := (List.mem_filter.mp hf).2
    unfold recordValid at hvf
    rcases hs : env.stat f.path with _ | ⟨sz, mt⟩
    · rw [hs] at hvf; exact absurd hvf (by simp)
    · exact ⟨sz, mt, rfl⟩
  have hsave : save_index env now store root (data.files.filter (recordValid env)) =
      fun r => if r = root then some (.ok ⟨root, now,
        (data.files.filter (recordValid env)).map
          (fun f => ⟨f.path, f.size, statMtime env f.path, true⟩)⟩) else store r := by
    unfold save_index
    rw [filterMap_stat_eq_map env _ hstat]
    rw [if_neg (by simpa using h4)]
  unfold load_index
  rw [h1]
  dsimp only
  rw [if_neg h2, if_pos h3, hsave, if_neg h4]
  refine ⟨rfl, ?_⟩
  dsimp only
  rw [if_pos rfl]

theorem c4_witness :
    (load_index envC4 0 storeC4w "root").1 =
      some ([raC4, rbC4].filter (recordValid envC4), 0) ∧
    (load_index envC4 0 storeC4w "root").2 "root" =
      some (.ok ⟨"root", 0,
        ([raC4, rbC4].filter (recordValid envC4)).map
          (fun f => ⟨f.path, f.size, statMtime envC4 f.path, true⟩)⟩) :=
  c4_amended envC4 0 storeC4w "root" ⟨"root", 0, [raC4, rbC4]⟩ rfl
    (by norm_num)
    (by simp [List.filter, recordValid_raC4, recordValid_rbC4])
    (by simp [List.filter, recordValid_raC4, recordValid_rbC4])

/-- C5: MD5 computation consumes at most the first three read-attempt
outcomes; when all three raise `IOError` the sentinel `""` is returned; and
every group in the result of HASH-method grouping consists of records sharing
one non-sentinel hash, so records with the unknown-hash sentinel (or with no
hash at all) are excluded and two unknown-hash records are never grouped as
equal. -/
theorem c5_md5_retry_and_unknown_hash_exclusion :
    (∀ a b : Nat → ReadOutcome, (∀ i, i < 3 → a i = b i) →
      calculate_md5 a = calculate_md5 b) ∧
    (∀ a : Nat → ReadOutcome, a 0 = .ioErr → a 1 = .ioErr → a 2 = .ioErr →
      calculate_md5 a = "") ∧
    (∀ (env : Env) (files : List FileInfo),
      ∀ q ∈ md5Duplicates env files, ∃ m, m ≠ "" ∧
        ∀ fi ∈ q.2, fileMd5 env fi = some m) := by
  have e : ∀ c : Nat → ReadOutcome, calculate_md5 c =
      (match c 0 with
       | .ok d => d
       | .otherErr => ""
       | .ioErr =>
         match c 1 with
         | .ok d => d
         | .otherErr => ""
         | .ioErr =>
           match c 2 with
           | .ok d => d
           | .otherErr => ""
           | .ioErr => "") := fun _ => rfl
  refine ⟨?_, ?_, ?_⟩
  · intro a b hab
    rw [e a, e b, hab 0 (by omega), hab 1 (by omega), hab 2 (by omega)]
  · intro a h0 h1 h2
    rw [e a, h0, h1, h2]
  · intro env files q hq
    refine collectDups_prop
      (fun g => ∃ m, m ≠ "" ∧ ∀ fi ∈ g, fileMd5 env fi = some m)
      (md5Groups env files) [] (by simp) ?_ q hq
    intro p hp hlen
    have hne : p.2 ≠ [] := by
      intro hnil; rw [hnil] at hlen; simp at hlen
    obtain ⟨a0, ha0⟩ := List.exists_mem_of_ne_nil p.2 hne
    have hmem := optGroupFold_prop (g := md5KeyOf env) files p hp
    have hk := md5KeyOf_eq (hmem a0 ha0).1
    exact ⟨p.1, hk.2, fun fi hfi => (md5KeyOf_eq (hmem fi hfi).1).1⟩

theorem c5_witness :
    calculate_md5 (fun _ => .ioErr) =
      calculate_md5 (fun i => if i < 3 then .ioErr else .ok "never") ∧
    calculate_md5 (fun _ => .ioErr) = "" ∧
    (∃ m, m ≠ "" ∧ ∀ fi ∈ [fileC5a, fileC5b], fileMd5 envC5 fi = some m) :=
  ⟨c5_md5_retry_and_unknown_hash_exclusion.1 _ _ (by decide),
   c5_md5_retry_and_unknown_hash_exclusion.2.1 _ rfl rfl rfl,
   c5_md5_retry_and_unknown_hash_exclusion.2.2 envC5 [fileC5a, fileC5b]
     ("MD5: d1d2d3d4...", [fileC5a, fileC5b]) (by decide)⟩

/-- C6: every MIXED-method duplicate group lies inside a single size class —
all its members carry the same byte size and belong to one `sizeGroups`
partition — so MIXED never conflates files of different sizes. -/
theorem c6_mixed_groups_size_homogeneous (env : Env) (files : List FileInfo) :
    ∀ q ∈ mixedDuplicates env files,
      ∃ sz cls, (sz, cls) ∈ sizeGroups files ∧
        (∀ a ∈ q.2, a.size_bytes = sz ∧ a ∈ cls) ∧
        ∀ a ∈ q.2, ∀ b ∈ q.2, a.size_bytes = b.size_bytes := by
  intro q hq
  have hg : ∀ p ∈ sizeGroups files, p.2.length > 1 →
      ∀ mg ∈ md5Groups env p.2, mg.2.length > 1 →
      ∃ sz cls, (sz, cls) ∈ sizeGroups files ∧
        ∀ a ∈ mg.2, a.size_bytes = sz ∧ a ∈ cls := by
    intro p hp _ mg hmg _
    refine ⟨p.1, p.2, by rw [Prod.mk.eta]; exact hp, ?_⟩
    intro a ha
    have h1 := optGroupFold_prop (g := md5KeyOf env) p.2 mg hmg a ha
    have hp' : p ∈ optGroupFold (fun fi => some fi.size_bytes) files := hp
    have h2 := optGroupFold_prop (g := fun fi => some fi.size_bytes) files p hp' a h1.2
    exact ⟨Option.some.inj h2.1, h1.2⟩
  have h := mixedCollect_prop env
    (fun g => ∃ sz cls, (sz, cls) ∈ sizeGroups files ∧
      ∀ a ∈ g, a.size_bytes = sz ∧ a ∈ cls)
    (sizeGroups files) [] (by simp) hg q hq
  obtain ⟨sz, cls, hmem, hall⟩ := h
  exact ⟨sz, cls, hmem, hall, fun a ha b hb => by
    rw [(hall a ha).1, (hall b hb).1]⟩

theorem c6_witness :
    ∃ sz cls, (sz, cls) ∈ sizeGroups [fileC6a, fileC6b, fileC6c] ∧
      (∀ a ∈ [fileC6a, fileC6b], a.size_bytes = sz ∧ a ∈ cls) ∧
      ∀ a ∈ [fileC6a, fileC6b], ∀ b ∈ [fileC6a, fileC6b],
        a.size_bytes = b.size_bytes :=
  c6_mixed_groups_size_homogeneous envC6 [fileC6a, fileC6b, fileC6c]
    ("大小: 0.00 MB, MD5: abcdefab...", [fileC6a, fileC6b]) (by decide)

/-- C7 counterexample: on an unreadable root (`os.walk` yields nothing) with
no cached index, `find_duplicates` completes normally and returns the empty
group map with zero files — no scan-level error is surfaced. -/
theorem c7_counterexample :
    (find_duplicates envEmpty storeEmpty "root" .SIZE none 0 0 0).1 = ([], 0) := by
  decide

/-- C7 amended: for every unreadable root (the walk yields nothing) with no
persisted index under the root's key, the scan completes normally for every
classification method, returning the empty group map and a zero total, and
leaves the store untouched — rather than surfacing a scan-level error
(`os.walk` suppresses the `scandir` failure with `onerror=None`). -/
theorem c7_amended (env : Env) (store : Store) (root : String)
    (method : DuplicateCheckMethod) (maxD : Nat) (minMb : ℚ) (now : ℚ)
    (h : store (normalize_path root) = none) :
    (find_duplicates env store root method none maxD minMb now).1 = ([], 0) ∧
    (find_duplicates env store root method none maxD minMb now).2 = store := by
  have hload : load_index env now store (normalize_path root) = (none, store) := by
    unfold load_index; rw [h]
  unfold find_duplicates
  dsimp only
  rw [hload]
  have hscan : scanPhase env none (normalize_path root) none maxD minMb = ([], 0) := rfl
  rw [hscan]
  dsimp only
  rw [if_neg (by simp : ¬ ((0 > 0 ∨ false = true) : Prop))]
  cases method <;>
    simp [classify, sizeDuplicates, md5Duplicates, mixedDuplicates,
      filenameDuplicates, sizeGroups, md5Groups, optGroupFold, collectDups,
      mixedCollect]

theorem c7_witness :
    storeEmpty (normalize_path "root") = none ∧
    (find_duplicates envEmpty storeEmpty "root" .MD5 none 0 0 0).1 = ([], 0) :=
  ⟨rfl, (c7_amended envEmpty storeEmpty "root" .MD5 0 0 0 rfl).1⟩

/-- C8 counterexample: `parse_music_filename` does not lower-case the title —
`"Song - Artist.mp3"` parses to title `"Song"` (capital S), not `"song"` as
the claim states. -/
theorem c8_counterexample :
    parse_music_filename "Song - Artist.mp3" ≠ ("song", "artist") := by
  decide

/-- C8 amended: both `"Song - Artist.mp3"` and `"Song - Artist (Live).mp3"`
normalize to title `"Song"` (case preserved) and artist `"artist"` — the
`(Live)` trailer sits in the artist part and is stripped by
`normalize_artist_name` — so the FILENAME classifier places both records in
one duplicate group; this lossy collapse is the code's behavior. -/
theorem c8_amended :
    parse_music_filename "Song - Artist.mp3" = ("Song", "artist") ∧
    parse_music_filename "Song - Artist (Live).mp3" = ("Song", "artist") ∧
    filenameDuplicates [fileC8a, fileC8b] =
      [("歌曲: Song (2个版本)", [fileC8a, fileC8b])] := by
  decide

/-- C9: group labels are not injective.  Sizes 0 and 1 byte are distinct but
both display as "0.00 MB", so under the SIZE method the two duplicate groups
collide on one label and the later group overwrites the earlier one in the
returned map, silently losing a duplicate group; the analogous collision
happens for the 8-character hash-prefix labels of the HASH and MIXED methods
with the distinct digests "aaaaaaaa01" and "aaaaaaaa02". -/
theorem c9_label_collisions :
    fileC9a1.size_bytes ≠ fileC9b1.size_bytes ∧
    fileC9a1.size = fileC9b1.size ∧
    sizeDuplicates [fileC9a1, fileC9a2, fileC9b1, fileC9b2] =
      [("大小: 0.00 MB", [fileC9b1, fileC9b2])] ∧
    Env.md5 envC9 "a1" ≠ Env.md5 envC9 "b1" ∧
    md5Duplicates envC9 [fileC9a1, fileC9a2, fileC9b1, fileC9b2] =
      [("MD5: aaaaaaaa...", [fileC9b1, fileC9b2])] ∧
    mixedDuplicates envC9 [fileC9a1, fileC9a2, fileC9b1, fileC9b2] =
      [("大小: 0.00 MB, MD5: aaaaaaaa...", [fileC9b1, fileC9b2])] := by
  decide

/-- C10: the recognized-extension filter and the minimum-size filter of the
walk are never applied to records rehydrated from a valid index: any validated
record that passes the merge-phase re-checks (non-empty parent dirname, parent
mtime not exceeding the stored mtime, live stat exists) appears in the merged
file list — which `find_duplicates` passes verbatim to the classifier — even
when its size is below `min_size_bytes` or its extension is unrecognized. -/
theorem c10_rehydrated_records_bypass_filters (env : Env)
    (recs : List IndexRecord) (t : ℚ) (root : String) (walk : Option WalkDir)
    (maxD : Nat) (minMb : ℚ) (r : IndexRecord)
    (hr : r ∈ recs)
    (hdir : dirname r.path ≠ "")
    (hmt : ¬ get_dir_mtime env (dirname r.path) > r.mtime)
    (hex : (FileInfo.from_path env r.path).exists_ = true)
    (_hfilter : ((FileInfo.from_path env r.path).size_bytes : ℚ) < minMb * 1024 * 1024 ∨
      pyLower (splitextExt r.path) ∉ MUSIC_EXTENSIONS) :
    FileInfo.from_path env r.path ∈
      (scanPhase env (some (recs, t)) root walk maxD minMb).1 := by
  rw [scanPhase_merge_eq]
  refine List.mem_append_left _ ?_
  unfold rehydratedRecords
  refine List.mem_map_of_mem _ ?_
  rw [List.mem_filter]
  exact ⟨hr, by simp [keepRecord, hdir, hmt, hex]⟩

theorem c10_witness :
    FileInfo.from_path envC10 "root/a/f.mp3" ∈
      (scanPhase envC10 (some ([rC10], 30)) "root" none 0 1).1 :=
  c10_rehydrated_records_bypass_filters envC10 [rC10] 30 "root" none 0 1 rC10
    (by decide) (by decide) (by decide) (by decide)
    (Or.inl (by
      norm_num [show (FileInfo.from_path envC10 rC10.path).size_bytes = 100 from rfl]))
